import Mathlib

/-!
Verification of the `autoComplete` directive of ngTagsInput
(src/auto-complete.js), a shallow embedding in Lean 4.

The core object is `SuggestionList` (a controller created by
`SuggestionList(loadFn, options, element)` in the source): it owns the
asynchronous load pipeline (debounce, stale-promise discarding, filtering
against current tags, truncation) and the keyboard navigation state
(cursor with wraparound, selection).  The directive's `link` function wires
host events (`input-keydown`, `input-change`, ...) to these operations.

Modelling choices:
* JS numbers used as indices/counts become `Int` (the cursor `self.index`
  can be `-1`, the "none" sentinel set by `reset`).
* A promise is identified by an abstract token (`Nat`); the source compares
  promise objects by reference (`promise !== lastPromise`), which we model
  as token equality.  A promise resolution is a pure state transformer.
* `undefined`/`null` become `none` of an `Option`.
* The DOM/scroll concerns (the SHIFTCODE `scroll` helper, `autoResize`,
  `$timeout(..., 0)` inside `show`) have no observable effect on the
  controller state modelled here and are omitted.
-/

namespace NgTagsInput

/-- A suggestion/tag record.  Candidates are compared, deduplicated and
rendered through their designated display field
(`options.tagsInput.displayProperty` in the source); the record is otherwise
opaque, so we keep just that field. -/
structure Candidate where
  display : String
  deriving DecidableEq, Repr

/-- Modelled from the spec: `findInObjectArray` is a helper of this
repository defined outside `src/` (only called there).  Per the spec it
looks a candidate up in an array by display-field equality, returning the
found item or null. -/
def findInObjectArray (array : List Candidate) (obj : Candidate) : Option Candidate :=
  array.find? (fun item => item.display == obj.display)

/-- `getDifference(array1, array2)` from the source: keeps the elements of
`array1` for which `findInObjectArray(array2, item, displayProperty)` is
falsy (null). -/
def getDifference (array1 array2 : List Candidate) : List Candidate :=
  array1.filter (fun item => (findInObjectArray array2 item).isNone)

/-- A raw element of the data-source result: either a plain string or an
already-shaped record. -/
inductive RawItem where
  | str (s : String)
  | obj (c : Candidate)
  deriving DecidableEq, Repr

/-- Modelled from the spec: `makeObjectArray` is a helper of this repository
defined outside `src/`.  Per the spec it normalizes the raw result into a
sequence of Candidate: records are kept, plain strings are wrapped into a
record whose display field is the string. -/
def makeObjectArray (l : List RawItem) : List Candidate :=
  l.map (fun r => match r with
    | RawItem.str s => { display := s }
    | RawItem.obj c => c)

/-- The value a data-source promise resolves with: either an immediate
array, or a `\x7b data: [...] \x7d` envelope (the source reads
`items.data || items`). -/
inductive FetchPayload where
  | plain (items : List RawItem)
  | envelope (data : List RawItem)
  deriving DecidableEq, Repr

/-- `items.data || items` from line 115 of the source. -/
def unwrapPayload : FetchPayload → List RawItem
  | FetchPayload.plain items => items
  | FetchPayload.envelope data => data

/-- JS `array.slice(0, e)`: a non-negative `e` takes the first `e` elements
(clamped to the length); a negative `e` counts from the end of the array.
`Int.toNat` clamps negatives to 0, matching the JS clamp. -/
def jsSliceTo (l : List Candidate) (e : Int) : List Candidate :=
  if e < 0 then l.take ((l.length : Int) + e).toNat else l.take e.toNat

/-- The list computed by lines 115-122 of the load resolution: the
normalized payload, diffed against the captured tags and truncated
according to `maxResultsToShow` (`-1` meaning "show all"). -/
def loadItems (maxResultsToShow : Int) (tags : List Candidate)
    (payload : FetchPayload) : List Candidate :=
  let items := makeObjectArray (unwrapPayload payload)
  let items := getDifference items tags
  if maxResultsToShow = -1 then items else jsSliceTo items maxResultsToShow

/-- The recognized options of the directive (the subset that the
`SuggestionList` logic reads), with JS numbers as `Int`. -/
structure Options where
  debounceDelay : Int
  minLength : Int
  highlightMatchedText : Bool
  maxResultsToShow : Int
  loadOnDownArrow : Bool
  loadOnEmpty : Bool
  loadOnFocus : Bool
  selectFirstMatch : Bool
  deriving DecidableEq, Repr

/-- The defaults registered with `tagsInputConfig.load` (lines 173-183). -/
def defaultOptions : Options :=
  { debounceDelay := 100
    minLength := 3
    highlightMatchedText := true
    maxResultsToShow := 10
    loadOnDownArrow := false
    loadOnEmpty := false
    loadOnFocus := false
    selectFirstMatch := true }

/-- A scheduled (not-yet-fired) debounced load: the `$timeout` callback
registered by `self.load` captures the `query` and `tags` arguments. -/
structure PendingLoad where
  query : String
  tags : List Candidate
  deriving DecidableEq, Repr

/-- The state of a `SuggestionList` object: the five public fields
(`items`, `visible`, `index`, `selected`, `query`) plus the closure
variables `lastPromise` (the token of the in-flight promise) and
`debouncedLoadId` (modelled as the pending debounced load, `none` once
cancelled or fired). -/
structure SLState where
  items : List Candidate
  visible : Bool
  index : Int
  selected : Option Candidate
  query : Option String
  lastPromise : Option Nat
  pending : Option PendingLoad
  deriving DecidableEq, Repr

/-- `self.reset` (lines 70-80): clears every public field, nulls
`lastPromise` and cancels the pending debounce timer.  The cursor's "none"
sentinel is `-1`. -/
def reset (_s : SLState) : SLState :=
  { items := []
    visible := false
    index := -1
    selected := none
    query := none
    lastPromise := none
    pending := none }

/-- The state after `SuggestionList` construction: the constructor body ends
with `self.reset()` (line 155) on fresh (undefined) fields. -/
def initialState : SLState :=
  { items := []
    visible := false
    index := -1
    selected := none
    query := none
    lastPromise := none
    pending := none }

/-- JS array indexing `self.items[index]`: `undefined` (here `none`) when
out of range. -/
def jsIndex (l : List Candidate) (i : Int) : Option Candidate :=
  if 0 ≤ i then l[i.toNat]? else none

/-- `self.select(index)` (lines 144-153): wraps an out-of-range index
(negative to the last index, too large to 0), stores it as the cursor and
stores `self.items[index]` as the selection. -/
def select (s : SLState) (index : Int) : SLState :=
  let index :=
    if index < 0 then (s.items.length : Int) - 1
    else if (s.items.length : Int) ≤ index then 0
    else index
  { s with index := index, selected := jsIndex s.items index }

/-- `self.selectNext` (lines 134-137): `self.select(++self.index)` — the
cursor is pre-incremented, then `select` runs (and overwrites it again). -/
def selectNext (s : SLState) : SLState :=
  select { s with index := s.index + 1 } (s.index + 1)

/-- `self.selectPrior` (lines 139-142): `self.select(--self.index)`. -/
def selectPrior (s : SLState) : SLState :=
  select { s with index := s.index - 1 } (s.index - 1)

/-- `self.show` (lines 82-100): selects index 0 when `selectFirstMatch` is
set, otherwise clears the selection (leaving cursor and items untouched),
then flips visibility on.  The trailing `$timeout` only resets the DOM
scroll position. -/
def showList (opts : Options) (s : SLState) : SLState :=
  let s := if opts.selectFirstMatch then select s 0 else { s with selected := none }
  { s with visible := true }

/-- The outer body of `self.load(query, tags)` (lines 102-104, 131):
cancels any pending debounce timer and schedules a fresh one capturing
`query` and `tags`. -/
def loadCall (query : String) (tags : List Candidate) (s : SLState) : SLState :=
  { s with pending := some { query := query, tags := tags } }

/-- The debounce timer firing (lines 105-108): sets `self.query`, invokes
the data source and records the fresh promise as `lastPromise`.  `tok` is
the fresh promise's token. -/
def debounceFire (tok : Nat) (s : SLState) : SLState :=
  match s.pending with
  | none => s
  | some p =>
      { s with pending := none, query := some p.query, lastPromise := some tok }

/-- The fulfillment callback of the promise with token `tok` (lines
110-130): a stale promise (`promise !== lastPromise`) is discarded;
otherwise the payload is normalized, diffed against the captured `tags`,
truncated (`maxResultsToShow === -1` shows all, otherwise
`items.slice(0, maxResultsToShow)`), stored, and the list is shown when
non-empty and reset when empty. -/
def resolveSuccess (opts : Options) (tok : Nat) (tags : List Candidate)
    (payload : FetchPayload) (s : SLState) : SLState :=
  if s.lastPromise ≠ some tok then s
  else
    let items := makeObjectArray (unwrapPayload payload)
    let items := getDifference items tags
    let items :=
      if opts.maxResultsToShow = -1 then items
      else jsSliceTo items opts.maxResultsToShow
    let s := { s with items := items }
    if 0 < s.items.length then showList opts s else reset s

/-- Rejection of the fetch promise: `promise.then(...)` registers no
rejection callback (lines 110-130), so a failed fetch runs no code in this
component and leaves the state untouched. -/
def resolveFailure (s : SLState) : SLState := s

/-- One promise resolution as recorded for a race analysis: the promise's
token and the `tags`/payload it would be processed with. -/
structure Resolution where
  token : Nat
  tags : List Candidate
  payload : FetchPayload
  deriving DecidableEq, Repr

/-- Applies a sequence of promise fulfillments in the given resolution
order. -/
def resolveAll (opts : Options) (rs : List Resolution) (s : SLState) : SLState :=
  rs.foldl (fun st r => resolveSuccess opts r.token r.tags r.payload st) s

/-- The spec's characterisation of `getDifference`: exactly the candidates
whose display-field value equals no tag's display-field value, in input
order. -/
def specDifference (candidates tags : List Candidate) : List Candidate :=
  candidates.filter (fun c => decide (∀ t ∈ tags, t.display ≠ c.display))

/-- The state visible to the directive's `link` function: the suggestion
list plus the effects sent to the host `tagsInput` controller
(`addTag` calls, whether `focusInput` was called). -/
structure CompState where
  sl : SLState
  addedTags : List Candidate
  focusCalled : Bool
  deriving DecidableEq, Repr

/-- `scope.addSuggestion` (lines 211-222): when a selection exists
(truthy), adds it as a tag, resets the list, refocuses the input and
reports `true`; otherwise reports `false` without touching anything. -/
def addSuggestion (s : CompState) : CompState × Bool :=
  match s.sl.selected with
  | some sel =>
      ({ sl := reset s.sl, addedTags := s.addedTags ++ [sel], focusCalled := true }, true)
  | none => (s, false)

/-- The keys the keydown handler can receive.  The numeric `KEYS` codes are
defined outside `src/`; only their identities matter here. -/
inductive Key where
  | enter
  | tab
  | escape
  | up
  | down
  | other
  deriving DecidableEq, Repr

/-- `hotkeys` (line 166): `[KEYS.enter, KEYS.tab, KEYS.escape, KEYS.up,
KEYS.down]`. -/
def hotkeys : List Key := [Key.enter, Key.tab, Key.escape, Key.up, Key.down]

/-- What the handler did to the DOM event: `event.preventDefault()` and
`event.stopImmediatePropagation()` (plus `return false`) when handled. -/
structure EventOutcome where
  defaultPrevented : Bool
  propagationStopped : Bool
  deriving DecidableEq, Repr

/-- The branch dispatch of the `input-keydown` handler (lines 263-287):
the new state together with the `handled` flag.  `currentText` is
`tagsInput.getCurrentTagText()` and `tags` is `tagsInput.getTags()`, read
when the closed-list down-arrow branch issues a load. -/
def keydownStep (opts : Options) (key : Key) (currentText : String)
    (tags : List Candidate) (s : CompState) : CompState × Bool :=
  if s.sl.visible then
    if key = Key.down then ({ s with sl := selectNext s.sl }, true)
    else if key = Key.up then ({ s with sl := selectPrior s.sl }, true)
    else if key = Key.escape then ({ s with sl := reset s.sl }, true)
    else if key = Key.enter ∨ key = Key.tab then addSuggestion s
    else (s, false)
  else
    if key = Key.down ∧ opts.loadOnDownArrow then
      ({ s with sl := loadCall currentText tags s.sl }, true)
    else (s, false)

/-- The `input-keydown` handler (lines 255-294): keys outside the hotkey
set return immediately; a handled hotkey suppresses the default behavior
and stops propagation. -/
def inputKeydown (opts : Options) (key : Key) (currentText : String)
    (tags : List Candidate) (s : CompState) : CompState × EventOutcome :=
  if ¬ hotkeys.contains key then (s, { defaultPrevented := false, propagationStopped := false })
  else
    let step := keydownStep opts key currentText tags s
    if step.2 then
      (step.1, { defaultPrevented := true, propagationStopped := true })
    else
      (step.1, { defaultPrevented := false, propagationStopped := false })

/-- The cursor invariant with `selectFirstMatch` enabled: on a non-empty
visible list the cursor is a valid index. -/
def cursorInv (s : SLState) : Prop :=
  s.items ≠ [] → s.visible = true → 0 ≤ s.index ∧ s.index < (s.items.length : Int)

/-- The visibility invariant: the list is visible only when non-empty. -/
def visibleInv (s : SLState) : Prop :=
  s.visible = true → s.items ≠ []

/-! Concrete data used to instantiate theorems on closed inputs. -/

/-- A concrete candidate. -/
def cA : Candidate := { display := "apple" }

/-- A concrete candidate. -/
def cB : Candidate := { display := "banana" }

/-- A concrete candidate. -/
def cC : Candidate := { display := "cherry" }

/-- A concrete candidate. -/
def cD : Candidate := { display := "date" }

/-- Default options with `selectFirstMatch` disabled. -/
def optsNoSFM : Options := { defaultOptions with selectFirstMatch := false }

/-- A concrete run of SuggestionList operations from the initial state with
`selectFirstMatch` disabled: a first load resolves with four candidates,
the user presses the down arrow four times (cursor ends at 3), then a
second load resolves with two candidates. -/
def cexChain : SLState :=
  let s0 := initialState
  let s1 := debounceFire 0 (loadCall "ab" [] s0)
  let s2 := resolveSuccess optsNoSFM 0 []
    (FetchPayload.plain [RawItem.obj cA, RawItem.obj cB, RawItem.obj cC, RawItem.obj cD]) s1
  let s3 := selectNext (selectNext (selectNext (selectNext s2)))
  let s4 := debounceFire 1 (loadCall "abc" [] s3)
  resolveSuccess optsNoSFM 1 [] (FetchPayload.plain [RawItem.obj cA, RawItem.obj cB]) s4

/-- A concrete open list with a selection (cursor 0 on two items). -/
def compVis : CompState :=
  { sl := { initialState with
      items := [cA, cB]
      visible := true
      index := 0
      selected := some cA }
    addedTags := []
    focusCalled := false }

/-- A concrete open list with no selection (`selectFirstMatch` disabled,
no navigation yet). -/
def compVisNoSel : CompState :=
  { sl := { initialState with
      items := [cA, cB]
      visible := true
      index := -1
      selected := none }
    addedTags := []
    focusCalled := false }

/-- A concrete non-empty visible list state. -/
def wsState : SLState :=
  { initialState with
    items := [cA, cB, cC]
    visible := true
    index := 0
    selected := some cA }

/-- Options with `maxResultsToShow = 2`. -/
def optsMax2 : Options := { defaultOptions with maxResultsToShow := 2 }

/-- A concrete four-element payload. -/
def payload4 : FetchPayload :=
  FetchPayload.plain [RawItem.obj cA, RawItem.obj cB, RawItem.obj cC, RawItem.obj cD]

/-- A concrete resolution record. -/
def res0 : Resolution := { token := 0, tags := [], payload := payload4 }

/-- A concrete resolution record with token 1. -/
def res1 : Resolution :=
  { token := 1
    tags := []
    payload := FetchPayload.plain [RawItem.obj cC, RawItem.obj cD] }

/-! Helper lemmas shared by the claim theorems. -/

theorem findInObjectArray_isNone_iff (tags : List Candidate) (c : Candidate) :
    (findInObjectArray tags c).isNone = true ↔ ∀ t ∈ tags, t.display ≠ c.display := by
  rw [Option.isNone_iff_eq_none, findInObjectArray, List.find?_eq_none]
  simp

theorem select_items (s : SLState) (i : Int) : (select s i).items = s.items := rfl

theorem showList_items (opts : Options) (s : SLState) :
    (showList opts s).items = s.items := by
  unfold showList
  by_cases h : opts.selectFirstMatch <;> simp [h, select_items]

theorem select_index_range (s : SLState) (i : Int) (hne : s.items ≠ []) :
    0 ≤ (select s i).index ∧ (select s i).index < (s.items.length : Int) := by
  have hlen : 0 < s.items.length := List.length_pos.mpr hne
  unfold select
  dsimp only
  split
  · constructor <;> omega
  · split <;> constructor <;> omega

theorem select_index_items (s : SLState) (i : Int) :
    (select s i).selected = jsIndex s.items ((select s i).index) := rfl

theorem resolveSuccess_stale (opts : Options) (tok : Nat) (tags : List Candidate)
    (payload : FetchPayload) (s : SLState) (h : s.lastPromise ≠ some tok) :
    resolveSuccess opts tok tags payload s = s := by
  unfold resolveSuccess
  simp [h]

theorem resolveSuccess_applied_items (opts : Options) (tok : Nat) (tags : List Candidate)
    (payload : FetchPayload) (s : SLState) (h : s.lastPromise = some tok) :
    (resolveSuccess opts tok tags payload s).items =
      (if opts.maxResultsToShow = -1 then
        getDifference (makeObjectArray (unwrapPayload payload)) tags
      else jsSliceTo (getDifference (makeObjectArray (unwrapPayload payload)) tags)
        opts.maxResultsToShow) := by
  unfold resolveSuccess
  simp only [h, ne_eq, not_true_eq_false, if_neg, ite_false]
  set its := (if opts.maxResultsToShow = -1 then
      getDifference (makeObjectArray (unwrapPayload payload)) tags
    else jsSliceTo (getDifference (makeObjectArray (unwrapPayload payload)) tags)
      opts.maxResultsToShow) with hits
  by_cases hpos : 0 < its.length
  · simp [hpos, showList_items]
  · have : its = [] := List.length_eq_zero.mp (by omega)
    simp [hpos, reset, this]

theorem showList_lastPromise (opts : Options) (s : SLState) :
    (showList opts s).lastPromise = s.lastPromise := by
  unfold showList
  by_cases h : opts.selectFirstMatch <;> simp [h, select]

theorem resolveSuccess_lastPromise (opts : Options) (tok : Nat) (tags : List Candidate)
    (payload : FetchPayload) (s : SLState) :
    (resolveSuccess opts tok tags payload s).lastPromise = s.lastPromise
    ∨ (resolveSuccess opts tok tags payload s).lastPromise = none := by
  unfold resolveSuccess
  split
  · left
    rfl
  · dsimp only
    split <;> split
    · left
      rw [showList_lastPromise]
    · right
      rfl
    · left
      rw [showList_lastPromise]
    · right
      rfl

theorem resolveAll_stale (opts : Options) (n : Nat) (rs : List Resolution) (s : SLState)
    (hcur : s.lastPromise = some n ∨ s.lastPromise = none)
    (hst : ∀ x ∈ rs, x.token ≠ n) :
    resolveAll opts rs s = s := by
  induction rs with
  | nil => rfl
  | cons r rs ih =>
      have hr : r.token ≠ n := hst r (by simp)
      have hid : resolveSuccess opts r.token r.tags r.payload s = s := by
        apply resolveSuccess_stale
        rcases hcur with h | h <;> simp [h]
        intro hc
        exact hr hc.symm
      show resolveAll opts rs (resolveSuccess opts r.token r.tags r.payload s) = s
      rw [hid]
      exact ih (fun x hx => hst x (by simp [hx]))

theorem resolveAll_cons (opts : Options) (r : Resolution) (rs : List Resolution)
    (s : SLState) :
    resolveAll opts (r :: rs) s
      = resolveAll opts rs (resolveSuccess opts r.token r.tags r.payload s) := rfl

theorem resolveAll_append (opts : Options) (l1 l2 : List Resolution) (s : SLState) :
    resolveAll opts (l1 ++ l2) s = resolveAll opts l2 (resolveAll opts l1 s) := by
  unfold resolveAll
  rw [List.foldl_append]

theorem select_index_eq (s : SLState) (i : Int) :
    (select s i).index =
      if i < 0 then (s.items.length : Int) - 1
      else if (s.items.length : Int) ≤ i then 0
      else i := rfl

theorem selectNext_index_eq (s : SLState) :
    (selectNext s).index =
      if s.index + 1 < 0 then (s.items.length : Int) - 1
      else if (s.items.length : Int) ≤ s.index + 1 then 0
      else s.index + 1 := rfl

theorem selectPrior_index_eq (s : SLState) :
    (selectPrior s).index =
      if s.index - 1 < 0 then (s.items.length : Int) - 1
      else if (s.items.length : Int) ≤ s.index - 1 then 0
      else s.index - 1 := rfl

theorem jsIndex_nil (i : Int) : jsIndex [] i = none := by
  unfold jsIndex
  split <;> simp

theorem selectNext_selected_eq (s : SLState) :
    (selectNext s).selected = jsIndex s.items ((selectNext s).index) := rfl

theorem selectPrior_selected_eq (s : SLState) :
    (selectPrior s).selected = jsIndex s.items ((selectPrior s).index) := rfl

theorem showList_visible (opts : Options) (s : SLState) :
    (showList opts s).visible = true := by
  unfold showList
  by_cases h : opts.selectFirstMatch <;> simp [h]

theorem resolveSuccess_applied (opts : Options) (tok : Nat) (tags : List Candidate)
    (payload : FetchPayload) (s : SLState) (h : s.lastPromise = some tok) :
    resolveSuccess opts tok tags payload s =
      if 0 < (loadItems opts.maxResultsToShow tags payload).length then
        showList opts { s with items := loadItems opts.maxResultsToShow tags payload }
      else reset s := by
  unfold resolveSuccess loadItems
  simp only [h, ne_eq, not_true_eq_false, if_neg, ite_false]
  split <;> rfl

theorem pair_if_fst (p : CompState × Bool) (a b : EventOutcome) :
    (if p.2 = true then (p.1, a) else (p.1, b)).1 = p.1 := by
  split <;> rfl

theorem inputKeydown_fst (opts : Options) (key : Key) (txt : String)
    (tags : List Candidate) (c : CompState) (hk : hotkeys.contains key = true) :
    (inputKeydown opts key txt tags c).1 = (keydownStep opts key txt tags c).1 := by
  unfold inputKeydown
  rw [if_neg (not_not_intro hk)]
  exact pair_if_fst (keydownStep opts key txt tags c) _ _

/-! Claim theorems. -/

/-- C1: stale-response race freedom.  A promise resolution whose token is
no longer the current `lastPromise` leaves the state untouched, and for any
interleaving in which the resolution of the last-issued fetch (token `n`,
the current `lastPromise`) is surrounded by arbitrary resolutions of
superseded fetches, the final state is exactly the state produced by the
last-issued fetch alone — regardless of resolution order. -/
theorem load_race_last_request_wins (opts : Options) (n : Nat) (r : Resolution)
    (rs1 rs2 : List Resolution) (s : SLState)
    (hcur : s.lastPromise = some n) (hr : r.token = n)
    (h1 : ∀ x ∈ rs1, x.token ≠ n) (h2 : ∀ x ∈ rs2, x.token ≠ n) :
    (∀ (u : SLState) (x : Resolution), u.lastPromise ≠ some x.token →
      resolveSuccess opts x.token x.tags x.payload u = u)
    ∧ resolveAll opts (rs1 ++ r :: rs2) s
        = resolveSuccess opts n r.tags r.payload s := by
  constructor
  · intro u x hx
    exact resolveSuccess_stale opts x.token x.tags x.payload u hx
  · rw [resolveAll_append, resolveAll_stale opts n rs1 s (Or.inl hcur) h1,
      resolveAll_cons, hr]
    apply resolveAll_stale opts n rs2 _ _ h2
    rcases resolveSuccess_lastPromise opts n r.tags r.payload s with h | h
    · rw [h, hcur]
      exact Or.inl rfl
    · exact Or.inr h

/-- C4: truncation.  For an applied load resolution (token still current),
if `maxResultsToShow` is the sentinel `-1` the stored Suggestion Set is the
whole post-difference sequence, and if `maxResultsToShow = N ≥ 0` it is the
first `N` post-difference candidates, hence of length at most `N`. -/
theorem load_truncation (opts : Options) (tok : Nat) (tags : List Candidate)
    (payload : FetchPayload) (s : SLState) (hcur : s.lastPromise = some tok) :
    (opts.maxResultsToShow = -1 →
      (resolveSuccess opts tok tags payload s).items =
        getDifference (makeObjectArray (unwrapPayload payload)) tags)
    ∧ (∀ N : Int, 0 ≤ N → opts.maxResultsToShow = N →
      (resolveSuccess opts tok tags payload s).items =
        (getDifference (makeObjectArray (unwrapPayload payload)) tags).take N.toNat
      ∧ ((resolveSuccess opts tok tags payload s).items.length : Int) ≤ N) := by
  have hitems := resolveSuccess_applied_items opts tok tags payload s hcur
  constructor
  · intro hm1
    rw [hitems, if_pos hm1]
  · intro N hN hmN
    have hne : opts.maxResultsToShow ≠ -1 := by omega
    rw [hitems, if_neg hne]
    unfold jsSliceTo
    rw [hmN, if_neg (by omega)]
    refine ⟨rfl, ?_⟩
    have hlt := List.length_take_le N.toNat
      (getDifference (makeObjectArray (unwrapPayload payload)) tags)
    omega

/-- C5: wraparound navigation.  On a non-empty Suggestion Set of length
`L`, `selectNext` from cursor `L-1` wraps to 0, `selectPrior` from cursor 0
wraps to `L-1`, `select(i)` maps `i < 0` to `L-1` and `i ≥ L` to 0 and
always stores the candidate at the resulting cursor as the selection; on an
empty set the operations are total and the selection becomes `none`. -/
theorem select_wraparound (s : SLState) (hne : s.items ≠ []) :
    (s.index = (s.items.length : Int) - 1 → (selectNext s).index = 0)
    ∧ (s.index = 0 → (selectPrior s).index = (s.items.length : Int) - 1)
    ∧ (∀ i : Int,
        (i < 0 → (select s i).index = (s.items.length : Int) - 1)
        ∧ ((s.items.length : Int) ≤ i → (select s i).index = 0)
        ∧ (select s i).selected = jsIndex s.items ((select s i).index))
    ∧ (∀ t : SLState, t.items = [] → ∀ i : Int,
        (select t i).selected = none
        ∧ (selectNext t).selected = none
        ∧ (selectPrior t).selected = none) := by
  have hlen : 0 < s.items.length := List.length_pos.mpr hne
  refine ⟨?_, ?_, fun i => ⟨?_, ?_, select_index_items s i⟩,
    fun t ht i => ⟨?_, ?_, ?_⟩⟩
  · intro hidx
    rw [selectNext_index_eq, hidx, if_neg (by omega), if_pos (by omega)]
  · intro hidx
    rw [selectPrior_index_eq, hidx, if_pos (by omega)]
  · intro hi
    rw [select_index_eq, if_pos hi]
  · intro hi
    rw [select_index_eq, if_neg (by omega), if_pos hi]
  · rw [select_index_items, ht, jsIndex_nil]
  · rw [selectNext_selected_eq, ht, jsIndex_nil]
  · rw [selectPrior_selected_eq, ht, jsIndex_nil]

/-- C6 counterexample: with `selectFirstMatch` disabled, a run of
SuggestionList operations from the initial state (load four items, press
down four times, load two items) reaches a state that is visible and
non-empty but whose cursor is 3 — neither a valid index of the two-element
set nor the `-1` "none" sentinel.  `show` with `selectFirstMatch` off
leaves the cursor untouched, so a stale cursor from a longer previous set
survives a load resolution. -/
theorem cursor_invariant_counterexample :
    cexChain.visible = true ∧ cexChain.items ≠ []
    ∧ ¬((0 ≤ cexChain.index ∧ cexChain.index < (cexChain.items.length : Int))
        ∨ cexChain.index = -1) := by
  decide

/-- C6 amended: with `selectFirstMatch` enabled, every SuggestionList
operation (reset, load scheduling, debounce firing, load resolution, show,
select, selectNext, selectPrior) preserves the invariant that on a
non-empty visible set the cursor is a valid index.  (With
`selectFirstMatch` disabled, `show` leaves the cursor unchanged, so it may
also be a stale index from a previously shown set, not only the "none"
sentinel.) -/
theorem cursor_invariant_selectFirstMatch (opts : Options) (q : String)
    (tags : List Candidate) (tok : Nat) (r : Resolution) (i : Int) (s : SLState)
    (hsfm : opts.selectFirstMatch = true) (hinv : cursorInv s) :
    cursorInv (reset s) ∧ cursorInv (loadCall q tags s)
    ∧ cursorInv (debounceFire tok s)
    ∧ cursorInv (resolveSuccess opts r.token r.tags r.payload s)
    ∧ cursorInv (showList opts s)
    ∧ cursorInv (select s i)
    ∧ cursorInv (selectNext s)
    ∧ cursorInv (selectPrior s) := by
  have hsel : ∀ (u : SLState) (j : Int), cursorInv (select u j) := by
    intro u j hne _
    rw [select_items] at hne ⊢
    exact select_index_range u j hne
  have hshow : ∀ u : SLState, cursorInv (showList opts u) := by
    intro u
    unfold showList
    rw [if_pos hsfm]
    intro hne _
    dsimp only at hne ⊢
    rw [select_items] at hne ⊢
    exact select_index_range u 0 hne
  refine ⟨?_, ?_, ?_, ?_, hshow s, hsel s i, ?_, ?_⟩
  · intro h
    exact absurd rfl h
  · exact hinv
  · unfold debounceFire
    cases s.pending
    · exact hinv
    · exact fun hne hvis => hinv hne hvis
  · by_cases hst : s.lastPromise = some r.token
    · unfold resolveSuccess
      simp only [hst, ne_eq, not_true_eq_false, if_neg, ite_false]
      split <;> split
      · exact hshow _
      · intro h
        exact absurd rfl h
      · exact hshow _
      · intro h
        exact absurd rfl h
    · rw [resolveSuccess_stale _ _ _ _ _ hst]
      exact hinv
  · intro hne hvis
    have h := select_index_range { s with index := s.index + 1 } (s.index + 1)
      (by exact hne)
    exact h
  · intro hne hvis
    have h := select_index_range { s with index := s.index - 1 } (s.index - 1)
      (by exact hne)
    exact h

/-- C7 counterexample: `show` is a SuggestionList operation, and applied
to the initial state (which satisfies the invariant: not visible) it turns
visibility on while the Suggestion Set stays empty, so the invariant
"visible only when non-empty" is not preserved by every operation. -/
theorem visible_invariant_counterexample :
    initialState.visible = false ∧ initialState.items = []
    ∧ (showList defaultOptions initialState).visible = true
    ∧ (showList defaultOptions initialState).items = [] := by
  decide

/-- C7 amended: the invariant "visible only when the Suggestion Set is
non-empty" is preserved by reset, load scheduling, debounce firing, load
resolution, select, selectNext, selectPrior, addSuggestion and the
input-keydown handler; the bare `show` operation preserves it whenever the
set is non-empty (which holds at its only call site, the load resolution
guarded by `length > 0`).  An applied load resolution with a non-empty
post-filter, post-truncation set becomes visible, and one with an empty
set equals the reset state. -/
theorem visible_invariant_preserved (opts : Options) (q txt : String)
    (tags : List Candidate) (tok : Nat) (r : Resolution) (i : Int) (key : Key)
    (s : SLState) (c : CompState)
    (hinv : visibleInv s) (hc : visibleInv c.sl) :
    visibleInv (reset s) ∧ visibleInv (loadCall q tags s)
    ∧ visibleInv (debounceFire tok s)
    ∧ visibleInv (resolveSuccess opts r.token r.tags r.payload s)
    ∧ visibleInv (select s i) ∧ visibleInv (selectNext s)
    ∧ visibleInv (selectPrior s)
    ∧ (s.items ≠ [] → visibleInv (showList opts s))
    ∧ visibleInv (addSuggestion c).1.sl
    ∧ visibleInv (inputKeydown opts key txt tags c).1.sl
    ∧ (s.lastPromise = some r.token →
        ((resolveSuccess opts r.token r.tags r.payload s).items ≠ [] →
          (resolveSuccess opts r.token r.tags r.payload s).visible = true)
        ∧ ((resolveSuccess opts r.token r.tags r.payload s).items = [] →
          resolveSuccess opts r.token r.tags r.payload s = reset s)) := by
  have hresetInv : ∀ u : SLState, visibleInv (reset u) := by
    intro u hv
    simp [reset] at hv
  have haddInv : visibleInv (addSuggestion c).1.sl := by
    unfold addSuggestion
    cases hsel : c.sl.selected
    · exact hc
    · exact hresetInv c.sl
  refine ⟨hresetInv s, hinv, ?_, ?_, hinv, hinv, hinv, ?_, haddInv, ?_, ?_⟩
  · unfold debounceFire
    cases s.pending
    · exact hinv
    · exact fun hv => hinv hv
  · by_cases hst : s.lastPromise = some r.token
    · rw [resolveSuccess_applied opts r.token r.tags r.payload s hst]
      split
    -- visible branch: the stored items are the non-empty truncated list
      · next hpos =>
          intro _
          rw [showList_items]
          exact List.length_pos.mp hpos
      · exact hresetInv s
    · rw [resolveSuccess_stale _ _ _ _ _ hst]
      exact hinv
  · intro hne _
    rw [showList_items]
    exact hne
  · by_cases hk : hotkeys.contains key
    · rw [inputKeydown_fst opts key txt tags c hk]
      unfold keydownStep
      split
      · split
        · exact fun hv => hc hv
        · split
          · exact fun hv => hc hv
          · split
            · exact hresetInv c.sl
            · split
              · exact haddInv
              · exact hc
      · split
        · exact fun hv => hc hv
        · exact hc
    · unfold inputKeydown
      rw [if_pos (by simpa using hk)]
      exact hc
  · intro hst
    rw [resolveSuccess_applied opts r.token r.tags r.payload s hst]
    constructor
    · split
      · intro _
        exact showList_visible _ _
      · intro hne
        exact absurd rfl hne
    · split
      · next hpos =>
          intro hempty
          rw [showList_items] at hempty
          dsimp only at hempty
          rw [hempty] at hpos
          simp at hpos
      · intro _
        rfl

/-- C2: `getDifference(candidates, tags)` returns exactly those candidates
whose display-field value does not equal the display-field value of any
tag (it equals the spec-side filter `specDifference`), and the returned
candidates appear in the same relative order as in the input (the result
is a sublist of the input). -/
theorem getDifference_correct (candidates tags : List Candidate) :
    getDifference candidates tags = specDifference candidates tags
    ∧ (getDifference candidates tags).Sublist candidates := by
  constructor
  · unfold getDifference specDifference
    apply List.filter_congr
    intro x _
    rw [Bool.eq_iff_iff, decide_eq_true_eq]
    exact findInObjectArray_isNone_iff tags x
  · exact List.filter_sublist _

/-- C3 counterexample: a load cycle whose fetch fails does mutate the
`query` field.  From the initial state (`query = none`), `load("abc", [])`
fires its debounce timer — which sets `self.query` before the fetch
outcome is known — and the fetch then rejects; the resulting state has
`query = some "abc" ≠ none`, so the claim that no field (including
`query`) is mutated by the load cycle is false. -/
theorem fetch_failure_mutates_query :
    (resolveFailure (debounceFire 0 (loadCall "abc" [] initialState))).query
        = some "abc"
    ∧ (resolveFailure (debounceFire 0 (loadCall "abc" [] initialState))).query
        ≠ initialState.query := by
  constructor
  · rfl
  · intro h
    simp [resolveFailure, debounceFire, loadCall, initialState] at h

/-- C3 amended: if the external fetch rejects, the rejection itself runs no
code of this component, so it mutates nothing and no exception escapes;
however the load cycle as a whole does set `query` (to the issued query
string) at debounce-fire time, before the fetch outcome is known, while
`items`, `visible`, `index` and `selected` are left unchanged. -/
theorem fetch_failure_amended (q : String) (tags : List Candidate) (tok : Nat)
    (s : SLState) :
    resolveFailure (debounceFire tok (loadCall q tags s))
        = debounceFire tok (loadCall q tags s)
    ∧ (debounceFire tok (loadCall q tags s)).items = s.items
    ∧ (debounceFire tok (loadCall q tags s)).visible = s.visible
    ∧ (debounceFire tok (loadCall q tags s)).index = s.index
    ∧ (debounceFire tok (loadCall q tags s)).selected = s.selected
    ∧ (debounceFire tok (loadCall q tags s)).query = some q := by
  refine ⟨rfl, rfl, rfl, rfl, rfl, rfl⟩

/-- C8: `reset()` leaves the SuggestionList in the state with empty items,
visibility off, cursor at the none sentinel (`-1`), no selection, no query,
no in-flight promise and no pending debounce timer; this is exactly the
initial state (the constructor ends with `self.reset()`), and a cancelled
debounce timer never fires (firing after a reset is a no-op). -/
theorem reset_postcondition :
    (∀ s : SLState, reset s = initialState)
    ∧ initialState.items = []
    ∧ initialState.visible = false
    ∧ initialState.index = -1
    ∧ initialState.selected = none
    ∧ initialState.query = none
    ∧ initialState.lastPromise = none
    ∧ initialState.pending = none
    ∧ (∀ (s : SLState) (tok : Nat), debounceFire tok (reset s) = reset s) := by
  refine ⟨fun _ => rfl, rfl, rfl, rfl, rfl, rfl, rfl, rfl, fun _ _ => rfl⟩

end NgTagsInput

namespace NgTagsInput

/-- C9: when the list is open and a selection exists, an enter or tab
keydown commits the selected candidate as a new tag on the host, resets
the SuggestionList to the closed (initial) state, returns focus to the
text input, the commit reports `true`, and the handled event's default
behavior is suppressed and its propagation stopped. -/
theorem enter_tab_commits_selection (opts : Options) (key : Key) (txt : String)
    (tags : List Candidate) (c : CompState) (sel : Candidate)
    (hvis : c.sl.visible = true) (hsel : c.sl.selected = some sel)
    (hkey : key = Key.enter ∨ key = Key.tab) :
    inputKeydown opts key txt tags c =
      ({ sl := initialState
         addedTags := c.addedTags ++ [sel]
         focusCalled := true },
       { defaultPrevented := true, propagationStopped := true })
    ∧ (addSuggestion c).2 = true := by
  have hadd : addSuggestion c =
      ({ sl := initialState
         addedTags := c.addedTags ++ [sel]
         focusCalled := true }, true) := by
    unfold addSuggestion
    rw [hsel]
    rfl
  have hstep : keydownStep opts key txt tags c =
      ({ sl := initialState
         addedTags := c.addedTags ++ [sel]
         focusCalled := true }, true) := by
    unfold keydownStep
    rw [if_pos hvis]
    rcases hkey with hk | hk <;> subst hk
    · rw [if_neg (by decide), if_neg (by decide), if_neg (by decide),
        if_pos (Or.inl rfl), hadd]
    · rw [if_neg (by decide), if_neg (by decide), if_neg (by decide),
        if_pos (Or.inr rfl), hadd]
  have hkc : hotkeys.contains key = true := by
    rcases hkey with hk | hk <;> subst hk <;> decide
  constructor
  · unfold inputKeydown
    rw [if_neg (not_not_intro hkc)]
    show (if (keydownStep opts key txt tags c).2 = true
        then ((keydownStep opts key txt tags c).1,
          ({ defaultPrevented := true, propagationStopped := true } : EventOutcome))
        else ((keydownStep opts key txt tags c).1,
          ({ defaultPrevented := false, propagationStopped := false } : EventOutcome)))
      = ({ sl := initialState
           addedTags := c.addedTags ++ [sel]
           focusCalled := true },
         { defaultPrevented := true, propagationStopped := true })
    rw [hstep]
    rfl
  · rw [hadd]

/-- C10: when the list is open but no candidate is selected, an enter or
tab keydown changes nothing: the component state is untouched,
`addSuggestion` reports `false`, no tag is added, and the event is not
handled — its default behavior is not suppressed and it propagates on. -/
theorem enter_tab_no_selection_ignored (opts : Options) (key : Key) (txt : String)
    (tags : List Candidate) (c : CompState)
    (hvis : c.sl.visible = true) (hsel : c.sl.selected = none)
    (hkey : key = Key.enter ∨ key = Key.tab) :
    inputKeydown opts key txt tags c =
      (c, { defaultPrevented := false, propagationStopped := false })
    ∧ (addSuggestion c).2 = false := by
  have hadd : addSuggestion c = (c, false) := by
    unfold addSuggestion
    rw [hsel]
  have hstep : keydownStep opts key txt tags c = (c, false) := by
    unfold keydownStep
    rw [if_pos hvis]
    rcases hkey with hk | hk <;> subst hk
    · rw [if_neg (by decide), if_neg (by decide), if_neg (by decide),
        if_pos (Or.inl rfl), hadd]
    · rw [if_neg (by decide), if_neg (by decide), if_neg (by decide),
        if_pos (Or.inr rfl), hadd]
  have hkc : hotkeys.contains key = true := by
    rcases hkey with hk | hk <;> subst hk <;> decide
  constructor
  · unfold inputKeydown
    rw [if_neg (not_not_intro hkc)]
    show (if (keydownStep opts key txt tags c).2 = true
        then ((keydownStep opts key txt tags c).1,
          ({ defaultPrevented := true, propagationStopped := true } : EventOutcome))
        else ((keydownStep opts key txt tags c).1,
          ({ defaultPrevented := false, propagationStopped := false } : EventOutcome)))
      = (c, { defaultPrevented := false, propagationStopped := false })
    rw [hstep]
    rfl
  · rw [hadd]

end NgTagsInput

namespace NgTagsInput

/-- C1 witness: with `lastPromise = some 1`, resolving the stale token-0
fetch before the current token-1 fetch yields exactly the state of the
token-1 fetch alone. -/
theorem load_race_witness :
    ({ initialState with lastPromise := some 1 } : SLState).lastPromise = some 1
    ∧ resolveAll defaultOptions [res0, res1]
        { initialState with lastPromise := some 1 }
      = resolveSuccess defaultOptions 1 res1.tags res1.payload
        { initialState with lastPromise := some 1 } := by
  refine ⟨rfl, ?_⟩
  exact (load_race_last_request_wins defaultOptions 1 res1 [res0] []
    { initialState with lastPromise := some 1 } rfl rfl (by decide) (by decide)).2

/-- C4 witness: with `maxResultsToShow = 2` and a four-candidate payload,
the stored set is the first two post-difference candidates, of length at
most 2. -/
theorem load_truncation_witness :
    ({ initialState with lastPromise := some 0 } : SLState).lastPromise = some 0
    ∧ (resolveSuccess optsMax2 0 [] payload4
        { initialState with lastPromise := some 0 }).items
      = (getDifference (makeObjectArray (unwrapPayload payload4)) []).take (2 : Int).toNat
    ∧ ((resolveSuccess optsMax2 0 [] payload4
        { initialState with lastPromise := some 0 }).items.length : Int) ≤ 2 := by
  have h := (load_truncation optsMax2 0 [] payload4
    { initialState with lastPromise := some 0 } rfl).2 2 (by decide) rfl
  exact ⟨rfl, h.1, h.2⟩

/-- C5 witness: on the concrete three-element list with cursor 0,
`selectPrior` wraps to the last index. -/
theorem select_wraparound_witness :
    wsState.items ≠ []
    ∧ (selectPrior wsState).index = (wsState.items.length : Int) - 1 := by
  refine ⟨by decide, ?_⟩
  exact (select_wraparound wsState (by decide)).2.1 rfl

/-- C6 witness: with the default options (`selectFirstMatch` on) and a
concrete visible three-element list, `select 5` leaves the cursor in
range. -/
theorem cursor_invariant_witness :
    defaultOptions.selectFirstMatch = true
    ∧ 0 ≤ (select wsState 5).index
    ∧ (select wsState 5).index < ((select wsState 5).items.length : Int) := by
  have hw : cursorInv wsState := by
    intro _ _
    exact ⟨by decide, by decide⟩
  have h := (cursor_invariant_selectFirstMatch defaultOptions "" [] 0 res0 5 wsState
    rfl hw).2.2.2.2.2.1 (by decide) (by decide)
  exact ⟨rfl, h.1, h.2⟩

/-- C7 witness: showing a concrete non-empty list keeps the set
non-empty. -/
theorem visible_invariant_witness :
    (showList defaultOptions wsState).items ≠ [] := by
  have hw : visibleInv wsState := fun _ => by decide
  have hc : visibleInv compVis.sl := fun _ => by decide
  exact (visible_invariant_preserved defaultOptions "" "" [] 0 res0 0 Key.enter
    wsState compVis hw hc).2.2.2.2.2.2.2.1 (by decide) (by decide)

/-- C9 witness: pressing enter on a concrete open list with `cA` selected
commits `cA`, resets and refocuses, and suppresses the event. -/
theorem enter_tab_commits_witness :
    inputKeydown defaultOptions Key.enter "" [] compVis =
      ({ sl := initialState
         addedTags := compVis.addedTags ++ [cA]
         focusCalled := true },
       { defaultPrevented := true, propagationStopped := true })
    ∧ (addSuggestion compVis).2 = true :=
  enter_tab_commits_selection defaultOptions Key.enter "" [] compVis cA rfl rfl
    (Or.inl rfl)

/-- C10 witness: pressing tab on a concrete open list with no selection
changes nothing and does not handle the event. -/
theorem enter_tab_no_selection_witness :
    inputKeydown defaultOptions Key.tab "" [] compVisNoSel =
      (compVisNoSel, { defaultPrevented := false, propagationStopped := false })
    ∧ (addSuggestion compVisNoSel).2 = false :=
  enter_tab_no_selection_ignored defaultOptions Key.tab "" [] compVisNoSel rfl rfl
    (Or.inr rfl)

end NgTagsInput
